import Mathlib

/-!
Shallow embedding of the token-validation and shift-coordination engine of
the `control-de-seguridad` backend (`backend/src/server.ts`), together with
theorems settling the frozen claims about its specification.

The Realtime-Database state touched by the core endpoints is modelled as
explicit association lists / append-only lists inside a `ServerState`
record; each HTTP handler becomes a pure function from a state (plus the
request fields and the timestamp captured by `Date.now()`) to a result and
a new state.  JavaScript truthiness of optional fields is modelled
explicitly (`ntruthy`, `struthy`, `ofalsy`).  Store writes that the source
wraps in `try/catch` (the attendance push, the audit-history push inside
`logAccess`, the best-effort student-name read) are modelled by a `Faults`
record saying which of those operations fails with a store error.
-/

namespace ControlSeguridad

/-- JavaScript truthiness of an optional numeric field (`0`, `null` and
`undefined` are falsy). -/
def ntruthy : Option Nat → Bool
  | none => false
  | some n => n != 0

/-- JavaScript truthiness of an optional string field (`""`, `null` and
`undefined` are falsy). -/
def struthy : Option String → Bool
  | none => false
  | some s => s != ""

/-- Model of the JavaScript idiom `x || null` on an optional string: an
absent or empty string collapses to `null` (`none`). -/
def ofalsy : Option String → Option String
  | none => none
  | some s => if s = "" then none else some s

/-- A record under `accessTokens/{id}` or `tokens/{key}`: the stored opaque
token value plus the single-use / expiry attributes. -/
structure TokenRecord where
  token : String
  used : Bool
  usedAt : Option Nat
  expiresAt : Option Nat
  deriving DecidableEq

/-- An entry pushed onto the append-only `accessHistory` collection, in the
shape written by `logAccess` (lines 143-152) and by the `guard/authorize`
handler (lines 667-676); fields absent from a given writer are `none`. -/
structure AuditEntry where
  id : Option String
  studentUid : Option String
  name : Option String
  token : Option String
  authorized : Bool
  reason : Option String
  sessionId : Option String
  timestamp : Nat
  note : Option String
  guardOverrideId : Option String
  shiftId : Option String
  deriving DecidableEq

/-- A record pushed under `attendance/{sessionId}/{studentUid}`; the
`/validate` writer sets `tokenId`, the `guard/authorize` writer sets
`guardId`, `authId` and `shiftId`. -/
structure AttendanceMark where
  sessionId : String
  studentUid : String
  type : String
  timestamp : Nat
  tokenId : Option String
  guardId : Option String
  authId : Option String
  shiftId : Option String
  deriving DecidableEq

/-- A record under `guardShifts/{id}` (the push key is stored as `id`). -/
structure Shift where
  id : String
  guardId : String
  startTimestamp : Nat
  endTimestamp : Option Nat
  active : Option Bool
  notes : Option String
  createdByAdminId : Option String
  deriving DecidableEq

/-- A record pushed under `guardAuthorizations` by `guard/authorize`. -/
structure OverrideRec where
  id : String
  guardId : String
  shiftId : Option String
  studentId : Option String
  token : Option String
  authorized : Bool
  reason : String
  note : Option String
  timestamp : Nat
  sessionId : String
  deriving DecidableEq

/-- A record under `guards/{id}`; `pinHash` is the bcrypt hash written by
`guards/create`, `pin` a legacy fallback field consulted by the login. -/
structure GuardRec where
  name : Option String
  pinHash : Option String
  pin : Option String
  deriving DecidableEq

/-- The slice of the Realtime Database the core endpoints read and write.
`accessTokens` and `tokens` are keyed maps (association lists keyed by
identity id resp. legacy key); `students` maps an id to the optional
`name` attribute of `students/{id}`; `guardShifts`, `guardAuthorizations`,
`attendance` and `accessHistory` are push collections in key order. -/
structure ServerState where
  accessTokens : List (String × TokenRecord)
  tokens : List (String × TokenRecord)
  students : List (String × Option String)
  guards : List (String × GuardRec)
  guardShifts : List Shift
  guardAuthorizations : List OverrideRec
  attendance : List AttendanceMark
  accessHistory : List AuditEntry
  deriving DecidableEq

/-- Which of the best-effort store operations of the `/validate` and
`/verify` handlers fail by raising a store error: the attendance push
(caught at line 216), the audit push inside `logAccess` (caught at line
156), and the student-name read (caught at lines 225 / 273). -/
structure Faults where
  attendanceFail : Bool
  auditFail : Bool
  nameFail : Bool
  deriving DecidableEq

/-- The fault-free execution: every store write and read succeeds. -/
def noFaults : Faults := ⟨false, false, false⟩

/-- The parameter object accepted by `logAccess`. -/
structure LogParams where
  id : Option String
  studentUid : Option String
  name : Option String
  token : Option String
  authorized : Bool
  reason : Option String
  sessionId : Option String
  deriving DecidableEq

/-- The entry object built by `logAccess` (lines 143-152) before pushing it
onto `accessHistory`. -/
def mkEntry (p : LogParams) (now : Nat) : AuditEntry :=
  { id := ofalsy p.id <|> ofalsy p.studentUid
    studentUid := ofalsy p.studentUid <|> ofalsy p.id
    name := ofalsy p.name
    token := ofalsy p.token
    authorized := p.authorized
    reason := ofalsy p.reason
    sessionId := ofalsy p.sessionId
    timestamp := now
    note := none
    guardOverrideId := none
    shiftId := none }

/-- `logAccess` (lines 132-160): pushes one entry onto `accessHistory`.
The whole body is inside `try/catch`, so a failing push is swallowed (the
function returns `null` to its caller and the state is unchanged);
`logAccess` never raises to its caller. -/
def logAccess (f : Faults) (st : ServerState) (p : LogParams) (now : Nat) : ServerState :=
  if f.auditFail then st
  else { st with accessHistory := st.accessHistory ++ [mkEntry p now] }

/-- The `orderByChild(token).equalTo(tokenId)` query on one keyed store:
the first entry (in key order) whose `token` attribute equals the presented
value. -/
def findByTokenValue (store : List (String × TokenRecord)) (tokenId : String) :
    Option (String × TokenRecord) :=
  store.find? (fun kv => kv.2.token == tokenId)

/-- Token resolution of `/validate` (lines 179-196): query `accessTokens`
by the `token` child; on a miss fall back to the legacy `tokens` store. -/
def resolveToken (st : ServerState) (tokenId : String) : Option (String × TokenRecord) :=
  match findByTokenValue st.accessTokens tokenId with
  | some kv => some kv
  | none => findByTokenValue st.tokens tokenId

/-- The expiry test of line 207: `tokenData.expiresAt && now >
Number(tokenData.expiresAt)` (an `expiresAt` of `0` is falsy and never
triggers the check). -/
def isExpired (r : TokenRecord) (now : Nat) : Bool :=
  match r.expiresAt with
  | none => false
  | some e => e != 0 && e < now

/-- The outcome of `POST /validate`. -/
inductive VResult where
  | missingInput
  | notFound
  | alreadyUsed
  | expired
  | success (studentUid : String)
  deriving DecidableEq

/-- The `POST /validate` handler (lines 167-244).  `tokenId` is the
trimmed request token, `sessionId` and `ty` the (already defaulted)
session and event type, and `now` the timestamp captured once at line 171.
Note that the success path never writes to either token store: the handler
checks `used` and `expiresAt` but does not set `used=true`. -/
def validate (f : Faults) (st : ServerState) (tokenId sessionId ty : String) (now : Nat) :
    VResult × ServerState :=
  if tokenId = "" then
    (VResult.missingInput,
      logAccess f st
        ⟨none, none, none, some tokenId, false, some "token required", some sessionId⟩ now)
  else
    match resolveToken st tokenId with
    | none =>
      (VResult.notFound,
        logAccess f st
          ⟨none, none, none, some tokenId, false, some "token not found", some sessionId⟩ now)
    | some (foundKey, tokenData) =>
      if foundKey = "" then
        (VResult.notFound,
          logAccess f st
            ⟨none, none, none, some tokenId, false, some "token not found", some sessionId⟩ now)
      else if tokenData.used then
        (VResult.alreadyUsed,
          logAccess f st
            ⟨some foundKey, some foundKey, none, some tokenId, false,
              some "token already used", some sessionId⟩ now)
      else if isExpired tokenData now then
        (VResult.expired,
          logAccess f st
            ⟨some foundKey, some foundKey, none, some tokenId, false,
              some "token expired", some sessionId⟩ now)
      else
        let st1 :=
          if f.attendanceFail then st
          else { st with attendance :=
            st.attendance ++ [⟨sessionId, foundKey, ty, now, some tokenId, none, none, none⟩] }
        let name :=
          if f.nameFail then none
          else match st1.students.lookup foundKey with
            | none => none
            | some n => ofalsy n
        let st2 :=
          logAccess f st1
            ⟨some foundKey, some foundKey, name, some tokenId, true, some "ok", some sessionId⟩ now
        (VResult.success foundKey, st2)

/-- The `reason` string `logAccess` receives on each decline path of
`/validate`. -/
def declineReason : VResult → Option String
  | VResult.missingInput => some "token required"
  | VResult.notFound => some "token not found"
  | VResult.alreadyUsed => some "token already used"
  | VResult.expired => some "token expired"
  | VResult.success _ => none

/-- The outcome of the legacy `POST /verify` endpoint. -/
inductive VerifyResult where
  | missingData
  | idNotFound
  | authorized
  | tokenMismatch
  deriving DecidableEq

/-- The legacy `POST /verify` handler (lines 247-289): a point read of
`accessTokens/{id}` followed by a pure string comparison of the stored
`token` attribute with the presented one; it consults neither `used` nor
`expiresAt` and performs no write besides the `logAccess` push. -/
def verifyEndpoint (f : Faults) (st : ServerState) (oid otok : Option String) (now : Nat) :
    VerifyResult × ServerState :=
  match ofalsy oid, ofalsy otok with
  | some id, some tok =>
    (match st.accessTokens.lookup id with
      | none =>
        (VerifyResult.idNotFound,
          logAccess f st
            ⟨some id, none, none, some tok, false, some "ID no encontrado", none⟩ now)
      | some tokenData =>
        if tokenData.token = tok then
          let name :=
            if f.nameFail then none
            else match st.students.lookup id with
              | none => none
              | some n => ofalsy n
          (VerifyResult.authorized,
            logAccess f st
              ⟨some id, some id, name, some tok, true, some "ok", none⟩ now)
        else
          (VerifyResult.tokenMismatch,
            logAccess f st
              ⟨some id, none, none, some tok, false, some "token incorrecto", none⟩ now))
  | _, _ =>
    (VerifyResult.missingData,
      logAccess f st ⟨oid, none, none, otok, false, some "missing data", none⟩ now)

/-- The openness filter of the shift handlers (`!s.endTimestamp &&
s.active !== false`, line 571). -/
def isOpenShift (s : Shift) : Bool :=
  !(ntruthy s.endTimestamp) && s.active != some false

/-- The `orderByChild(guardId).equalTo(guardId)` query followed by the
openness filter (lines 567-571): the Active shifts of one guard, in key
order. -/
def openShiftsFor (gid : String) (shifts : List Shift) : List Shift :=
  shifts.filter (fun s => s.guardId == gid && isOpenShift s)

/-- The outcome of `POST /guard/shift/start`. -/
inductive StartResult where
  | conflict (existing : Shift)
  | started (shiftId : String) (startTimestamp : Nat)
  deriving DecidableEq

/-- The `POST /guard/shift/start` handler (lines 561-593): if the guard
has an Active shift and `force` is not set, answer `already active`
returning the first such shift (`open[0]`) and write nothing; otherwise
push a fresh Active shift under the fresh key `newId`. -/
def startShift (st : ServerState) (gid : String) (notes createdByAdminId : Option String)
    (force : Bool) (now : Nat) (newId : String) : StartResult × ServerState :=
  match openShiftsFor gid st.guardShifts, force with
  | existing :: _, false => (StartResult.conflict existing, st)
  | _, _ =>
    (StartResult.started newId now,
      { st with guardShifts := st.guardShifts ++
        [⟨newId, gid, now, none, some true, ofalsy notes, ofalsy createdByAdminId⟩] })

/-- The outcome of `POST /guard/shift/end`. -/
inductive EndResult where
  | shiftNotFound
  | notOwner
  | alreadyEnded
  | ended (shiftId : String) (endTimestamp : Nat)
  deriving DecidableEq

/-- The `update(\x7b endTimestamp, active:false, notes \x7d)` applied to the
shift being closed (lines 610 / 626). -/
def closeShift (s : Shift) (now : Nat) (notes : Option String) : Shift :=
  { s with endTimestamp := some now
           active := some false
           notes := ofalsy notes <|> ofalsy s.notes }

/-- Point update of `guardShifts/{sid}` (push keys are unique). -/
def updateShiftById (shifts : List Shift) (sid : String) (now : Nat) (notes : Option String) :
    List Shift :=
  shifts.map (fun s => if s.id == sid then closeShift s now notes else s)

/-- One insertion step of sorting shifts by `startTimestamp` descending,
modelling the comparator `(b.startTimestamp||0)-(a.startTimestamp||0)` of
line 620. -/
def insertDesc (x : Shift) : List Shift → List Shift
  | [] => [x]
  | y :: ys => if y.startTimestamp ≤ x.startTimestamp then x :: y :: ys else y :: insertDesc x ys

/-- Sorting shifts by `startTimestamp` descending (line 620). -/
def sortByStartDesc : List Shift → List Shift
  | [] => []
  | x :: xs => insertDesc x (sortByStartDesc xs)

/-- The `POST /guard/shift/end` handler (lines 597-633).  With a truthy
`shiftId`: point read, ownership check, already-ended check, then close.
Without one: close the head of the guard's Active shifts sorted by
`startTimestamp` descending, or answer `no active shift found`. -/
def endShift (st : ServerState) (gid : String) (shiftId : Option String)
    (notes : Option String) (now : Nat) : EndResult × ServerState :=
  match ofalsy shiftId with
  | some sid =>
    (match st.guardShifts.find? (fun s => s.id == sid) with
      | none => (EndResult.shiftNotFound, st)
      | some sh =>
        if sh.guardId != gid then (EndResult.notOwner, st)
        else if ntruthy sh.endTimestamp then (EndResult.alreadyEnded, st)
        else
          (EndResult.ended sid now,
            { st with guardShifts := updateShiftById st.guardShifts sid now notes }))
  | none =>
    match sortByStartDesc (openShiftsFor gid st.guardShifts) with
    | [] => (EndResult.shiftNotFound, st)
    | target :: _ =>
      (EndResult.ended target.id now,
        { st with guardShifts := updateShiftById st.guardShifts target.id now notes })

/-- The outcome of `POST /guard/authorize`. -/
inductive AuthResult where
  | missingInput
  | authorized (authId : String) (timestamp : Nat)
  deriving DecidableEq

/-- The `POST /guard/authorize` handler (lines 636-683): requires a truthy
`studentId` or `token`; pushes one always-authorized override record, one
attendance mark when `studentId` is truthy, and one `accessHistory` entry
carrying the override id.  It reads neither token store. -/
def authorize (st : ServerState) (gid : String) (studentId token : Option String)
    (sessionId : String) (note shiftId : Option String) (now : Nat) (newAuthId : String) :
    AuthResult × ServerState :=
  if !(struthy studentId) && !(struthy token) then (AuthResult.missingInput, st)
  else
    let ov : OverrideRec :=
      ⟨newAuthId, gid, ofalsy shiftId, ofalsy studentId, ofalsy token,
        true, "manual_override", ofalsy note, now, sessionId⟩
    let st1 := { st with guardAuthorizations := st.guardAuthorizations ++ [ov] }
    let st2 :=
      match ofalsy studentId with
      | some sid =>
        let mark : AttendanceMark :=
          ⟨sessionId, sid, "manual_entry_by_guard", now, none, some gid, some newAuthId,
            ofalsy shiftId⟩
        { st1 with attendance := st1.attendance ++ [mark] }
      | none => st1
    let hist : AuditEntry :=
      { id := ofalsy studentId
        studentUid := none
        name := none
        token := ofalsy token
        authorized := true
        reason := some "manual_override"
        sessionId := none
        timestamp := now
        note := ofalsy note
        guardOverrideId := some newAuthId
        shiftId := ofalsy shiftId }
    let st3 := { st2 with accessHistory := st2.accessHistory ++ [hist] }
    (AuthResult.authorized newAuthId now, st3)

/-- The signed JWT payload plus its configured lifetime (`expiresIn`),
`jwt.sign` itself being the opaque signing capability. -/
structure SignedClaim where
  guardId : String
  name : Option String
  role : String
  expiresIn : String
  deriving DecidableEq

/-- The outcome of `POST /guard/login`. -/
inductive LoginResult where
  | badRequest
  | guardNotFound
  | misconfigured
  | invalidPin
  | loggedIn (claim : SignedClaim)
  deriving DecidableEq

/-- The stored-hash selection of line 519: `guard.pinHash || guard.pin ||
null`. -/
def storedHashOf (g : GuardRec) : Option String :=
  ofalsy g.pinHash <|> ofalsy g.pin

/-- The `POST /guard/login` handler (lines 500-555), with the opaque
bcrypt comparison `verifyHash` and the configured claim lifetime `jwtExp`
passed in as capabilities.  A guard record without any stored hash is a
misconfiguration answered 500, distinct from the 401 of a wrong pin. -/
def guardLogin (verifyHash : String → String → Bool) (jwtExp : String)
    (st : ServerState) (oid opin : Option String) : LoginResult :=
  match ofalsy oid, opin with
  | some id, some pin =>
    (match st.guards.lookup id with
      | none => LoginResult.guardNotFound
      | some g =>
        match storedHashOf g with
        | none => LoginResult.misconfigured
        | some h =>
          if verifyHash pin.trim h then LoginResult.loggedIn ⟨id, g.name, "guard", jwtExp⟩
          else LoginResult.invalidPin)
  | _, _ => LoginResult.badRequest

/-- One call against the shift endpoints, for reasoning about serialized
call sequences. -/
inductive ShiftOp where
  | start (gid : String) (notes createdByAdminId : Option String) (force : Bool)
      (now : Nat) (newId : String)
  | stop (gid : String) (shiftId : Option String) (notes : Option String) (now : Nat)

/-- The state transition of one shift call. -/
def applyOp (st : ServerState) : ShiftOp → ServerState
  | ShiftOp.start gid notes cb force now nid => (startShift st gid notes cb force now nid).2
  | ShiftOp.stop gid sid notes now => (endShift st gid sid notes now).2

/-- Running a serialized sequence of shift calls. -/
def runOps (st : ServerState) : List ShiftOp → ServerState
  | [] => st
  | op :: ops => runOps (applyOp st op) ops

/-- A call that does not use the `force` escape hatch. -/
def forceFree : ShiftOp → Bool
  | ShiftOp.start _ _ _ force _ _ => !force
  | ShiftOp.stop _ _ _ _ => true

/-- Iterating the `/verify` endpoint: the state after `n` further calls
with the same inputs. -/
def verifyIter (f : Faults) (oid otok : Option String) (now : Nat) :
    Nat → ServerState → ServerState
  | 0, st => st
  | n + 1, st => verifyIter f oid otok now n (verifyEndpoint f st oid otok now).2

/-- A database whose only record is one unused, unexpiring access token
bound to `est-001`. -/
def oneTokenState : ServerState :=
  ⟨[("est-001", ⟨"T1", false, none, none⟩)], [], [], [], [], [], [], []⟩

/-- A database whose only record is a token that is both already used and
past its expiry deadline. -/
def usedExpiredState : ServerState :=
  ⟨[("est-002", ⟨"T2", true, none, some 5⟩)], [], [], [], [], [], [], []⟩

/-- A database whose only record is an unused token past its expiry
deadline. -/
def freshExpiredState : ServerState :=
  ⟨[("est-003", ⟨"T3", false, none, some 5⟩)], [], [], [], [], [], [], []⟩

/-- The empty database. -/
def emptyState : ServerState := ⟨[], [], [], [], [], [], [], []⟩

/-- A database with one registered guard `g1`. -/
def oneGuardState : ServerState :=
  ⟨[], [], [], [("g1", ⟨some "Ana", some "HASH", none⟩)], [], [], [], []⟩

/-- A database with one guard record that has neither `pinHash` nor `pin`. -/
def noHashGuardState : ServerState :=
  ⟨[], [], [], [("g2", ⟨some "Luz", none, none⟩)], [], [], [], []⟩

/-- A database with one open shift `s1` for guard `g1`. -/
def oneShiftState : ServerState :=
  ⟨[], [], [], [], [⟨"s1", "g1", 10, none, some true, none, none⟩], [], [], []⟩

/-- Guard `g1` starting a shift twice in direct succession without
`force`. -/
def demoOps : List ShiftOp :=
  [ShiftOp.start "g1" none none false 10 "s1", ShiftOp.start "g1" none none false 20 "s2"]

/- ------------------------------------------------------------------
Helper lemmas
------------------------------------------------------------------ -/

@[simp] lemma logAccess_accessTokens (f : Faults) (st : ServerState) (p : LogParams) (now : Nat) :
    (logAccess f st p now).accessTokens = st.accessTokens := by
  unfold logAccess; split <;> rfl

@[simp] lemma logAccess_tokens (f : Faults) (st : ServerState) (p : LogParams) (now : Nat) :
    (logAccess f st p now).tokens = st.tokens := by
  unfold logAccess; split <;> rfl

@[simp] lemma logAccess_attendance (f : Faults) (st : ServerState) (p : LogParams) (now : Nat) :
    (logAccess f st p now).attendance = st.attendance := by
  unfold logAccess; split <;> rfl

lemma logAccess_noFault (st : ServerState) (p : LogParams) (now : Nat) :
    (logAccess noFaults st p now).accessHistory = st.accessHistory ++ [mkEntry p now] := by
  rfl

@[simp] lemma ofalsy_some_of_ne (s : String) (h : s ≠ "") : ofalsy (some s) = some s := by
  simp [ofalsy, h]

set_option maxRecDepth 10000

lemma validate_success_iff (f : Faults) (st : ServerState) (tok sid ty : String) (now : Nat)
    (uid : String) :
    (validate f st tok sid ty now).1 = VResult.success uid ↔
      tok ≠ "" ∧ ∃ r, resolveToken st tok = some (uid, r) ∧ uid ≠ "" ∧
        r.used = false ∧ isExpired r now = false := by
  by_cases h1 : tok = ""
  · simp [validate, h1]
  · cases hres : resolveToken st tok with
    | none => simp [validate, h1, hres]
    | some kr =>
      obtain ⟨k, r⟩ := kr
      by_cases h2 : k = ""
      · simp [validate, h1, hres, h2]
        intro h hu _
        exact absurd h.symm hu
      · by_cases h3 : r.used
        · simp [validate, h1, hres, h2, h3]
        · by_cases h4 : isExpired r now
          · simp [validate, h1, hres, h2, h3, h4]
          · simp [validate, h1, hres, h2, h3, h4]
            constructor
            · intro h
              exact ⟨r, ⟨h, rfl⟩, by rw [← h]; exact h2,
                (by simpa using h3 : r.used = false),
                (by simpa using h4 : isExpired r now = false)⟩
            · rintro ⟨r1, ⟨hk, rfl⟩, -, -, -⟩
              exact hk

lemma validate_alreadyUsed_iff (f : Faults) (st : ServerState) (tok sid ty : String) (now : Nat) :
    (validate f st tok sid ty now).1 = VResult.alreadyUsed ↔
      tok ≠ "" ∧ ∃ k r, resolveToken st tok = some (k, r) ∧ k ≠ "" ∧ r.used = true := by
  by_cases h1 : tok = ""
  · simp [validate, h1]
  · cases hres : resolveToken st tok with
    | none => simp [validate, h1, hres]
    | some kr =>
      obtain ⟨k, r⟩ := kr
      by_cases h2 : k = ""
      · simp [validate, h1, hres, h2]
      · by_cases h3 : r.used
        · simp [validate, h1, hres, h2, h3]
          exact ⟨k, r, ⟨rfl, rfl⟩, h2, h3⟩
        · by_cases h4 : isExpired r now
          · simp [validate, h1, hres, h2, h3, h4]
          · simp [validate, h1, hres, h2, h3, h4]

lemma verifyEndpoint_stores (f : Faults) (st : ServerState) (oid otok : Option String)
    (now : Nat) :
    (verifyEndpoint f st oid otok now).2.accessTokens = st.accessTokens ∧
    (verifyEndpoint f st oid otok now).2.tokens = st.tokens := by
  unfold verifyEndpoint
  split
  · split
    · simp
    · split <;> simp
  · simp

lemma verifyIter_accessTokens (f : Faults) (oid otok : Option String) (now n : Nat)
    (st : ServerState) :
    (verifyIter f oid otok now n st).accessTokens = st.accessTokens := by
  induction n generalizing st with
  | zero => rfl
  | succ n ih =>
    show (verifyIter f oid otok now n (verifyEndpoint f st oid otok now).2).accessTokens = _
    rw [ih, (verifyEndpoint_stores f st oid otok now).1]

lemma struthy_eq_isSome (o : Option String) : struthy o = (ofalsy o).isSome := by
  cases o with
  | none => rfl
  | some s =>
    by_cases h : s = "" <;> simp [struthy, ofalsy, h]

lemma mem_length_le_one {α : Type} (l : List α) (a : α) (h : l.length ≤ 1) (ha : a ∈ l) :
    l = [a] := by
  cases l with
  | nil => cases ha
  | cons x xs =>
    cases xs with
    | nil =>
      simp only [List.mem_singleton] at ha
      rw [ha]
    | cons y ys => simp at h

lemma length_filter_map_le (p : Shift → Bool) (f : Shift → Shift) (l : List Shift)
    (hf : ∀ s, f s = s ∨ p (f s) = false) :
    ((l.map f).filter p).length ≤ (l.filter p).length := by
  induction l with
  | nil => simp
  | cons x xs ih =>
    simp only [List.map_cons, List.filter_cons]
    rcases hf x with h | h
    · rw [h]
      by_cases hx : p x
      · simp only [hx, if_pos, List.length_cons]
        exact Nat.succ_le_succ ih
      · simp only [hx]
        simpa using ih
    · rw [h]
      simp only [Bool.false_eq_true, if_neg]
      by_cases hx : p x
      · simp only [hx, if_pos, List.length_cons]
        exact Nat.le_succ_of_le ih
      · simp only [hx]
        simpa using ih

lemma openShiftsFor_update_le (g : String) (shifts : List Shift) (sid : String) (now : Nat)
    (notes : Option String) :
    (openShiftsFor g (updateShiftById shifts sid now notes)).length ≤
      (openShiftsFor g shifts).length := by
  unfold openShiftsFor updateShiftById
  apply length_filter_map_le
  intro s
  by_cases h : s.id == sid
  · right
    simp [h, closeShift, isOpenShift]
  · left
    simp [h]

lemma updateShiftById_closed (shifts : List Shift) (sid : String) (now : Nat)
    (notes : Option String) :
    ∀ s ∈ updateShiftById shifts sid now notes, s.id = sid →
      s.endTimestamp = some now ∧ s.active = some false := by
  intro s hs hid
  simp only [updateShiftById, List.mem_map] at hs
  obtain ⟨a, _, ha⟩ := hs
  by_cases h : a.id == sid
  · rw [if_pos h] at ha
    rw [← ha]
    simp [closeShift]
  · rw [if_neg h] at ha
    rw [← ha] at hid
    exact absurd (by simp [hid] : (a.id == sid) = true) h

lemma insertDesc_mem (x : Shift) (l : List Shift) (a : Shift) :
    a ∈ insertDesc x l ↔ a = x ∨ a ∈ l := by
  induction l with
  | nil => simp [insertDesc]
  | cons y ys ih =>
    unfold insertDesc
    by_cases h : y.startTimestamp ≤ x.startTimestamp
    · rw [if_pos h]
      simp only [List.mem_cons]
    · rw [if_neg h]
      simp only [List.mem_cons, ih]
      tauto

lemma sortByStartDesc_mem (l : List Shift) (a : Shift) :
    a ∈ sortByStartDesc l ↔ a ∈ l := by
  induction l with
  | nil => simp [sortByStartDesc]
  | cons x xs ih =>
    unfold sortByStartDesc
    rw [insertDesc_mem, ih]
    simp

lemma sortByStartDesc_head (l : List Shift) :
    ∀ sh t, sortByStartDesc l = sh :: t →
      sh ∈ l ∧ ∀ a ∈ l, a.startTimestamp ≤ sh.startTimestamp := by
  induction l with
  | nil => intro sh t h; cases h
  | cons x xs ih =>
    intro sh t h
    unfold sortByStartDesc at h
    cases hs : sortByStartDesc xs with
    | nil =>
      rw [hs] at h
      unfold insertDesc at h
      cases h
      constructor
      · exact List.mem_cons_self x xs
      · intro a ha
        cases ha with
        | head => exact Nat.le_refl _
        | tail _ hmem =>
          have : a ∈ sortByStartDesc xs := (sortByStartDesc_mem xs a).2 hmem
          rw [hs] at this
          cases this
    | cons y ys =>
      rw [hs] at h
      obtain ⟨hy, hbound⟩ := ih y ys hs
      unfold insertDesc at h
      by_cases hcmp : y.startTimestamp ≤ x.startTimestamp
      · rw [if_pos hcmp] at h
        cases h
        refine ⟨List.mem_cons_self x xs, fun a ha => ?_⟩
        cases ha with
        | head => exact Nat.le_refl _
        | tail _ hmem => exact Nat.le_trans (hbound a hmem) hcmp
      · rw [if_neg hcmp] at h
        cases h
        refine ⟨List.mem_cons_of_mem x hy, fun a ha => ?_⟩
        cases ha with
        | head => exact Nat.le_of_lt (Nat.lt_of_not_le hcmp)
        | tail _ hmem => exact hbound a hmem

lemma startShift_open_length (st : ServerState) (gid : String) (notes cb : Option String)
    (now : Nat) (nid : String)
    (hinv : ∀ g2, (openShiftsFor g2 st.guardShifts).length ≤ 1) (g : String) :
    (openShiftsFor g ((startShift st gid notes cb false now nid).2.guardShifts)).length ≤ 1 := by
  unfold startShift
  cases ho : openShiftsFor gid st.guardShifts with
  | cons a l =>
    simp only [ho]
    exact hinv g
  | nil =>
    simp only [ho]
    unfold openShiftsFor
    rw [List.filter_append]
    by_cases hg : gid = g
    · have hempty : st.guardShifts.filter (fun s => s.guardId == g && isOpenShift s) = [] := by
        rw [← hg]
        exact ho
      rw [hempty]
      simp [isOpenShift, ntruthy, hg]
    · have : ((⟨nid, gid, now, none, some true, ofalsy notes, ofalsy cb⟩ : Shift).guardId == g) =
          false := by
        simp [hg]
      simp only [List.filter_cons, this, Bool.false_and, List.filter_nil]
      simpa using hinv g

lemma endShift_open_length_le (st : ServerState) (gid : String) (sid : Option String)
    (notes : Option String) (now : Nat) (g : String) :
    (openShiftsFor g ((endShift st gid sid notes now).2.guardShifts)).length ≤
      (openShiftsFor g st.guardShifts).length := by
  unfold endShift
  split
  · split
    · exact Nat.le_refl _
    · split
      · exact Nat.le_refl _
      · split
        · exact Nat.le_refl _
        · exact openShiftsFor_update_le g st.guardShifts _ now notes
  · split
    · exact Nat.le_refl _
    · exact openShiftsFor_update_le g st.guardShifts _ now notes

lemma runOps_inv (ops : List ShiftOp) (hops : ∀ op ∈ ops, forceFree op = true)
    (st : ServerState) (hinv : ∀ g, (openShiftsFor g st.guardShifts).length ≤ 1) :
    ∀ g, (openShiftsFor g (runOps st ops).guardShifts).length ≤ 1 := by
  induction ops generalizing st with
  | nil => exact hinv
  | cons op ops ih =>
    have hop := hops op (List.mem_cons_self op ops)
    have hops2 : ∀ o ∈ ops, forceFree o = true := fun o ho => hops o (List.mem_cons_of_mem _ ho)
    show ∀ g, (openShiftsFor g (runOps (applyOp st op) ops).guardShifts).length ≤ 1
    apply ih hops2
    cases op with
    | start gid notes cb force now nid =>
      have hforce : force = false := by simpa [forceFree] using hop
      subst hforce
      exact fun g => startShift_open_length st gid notes cb now nid hinv g
    | stop gid sid notes now =>
      exact fun g => Nat.le_trans (endShift_open_length_le st gid sid notes now g) (hinv g)

lemma validate_stores (f : Faults) (st : ServerState) (tok sid ty : String) (now : Nat) :
    (validate f st tok sid ty now).2.accessTokens = st.accessTokens ∧
    (validate f st tok sid ty now).2.tokens = st.tokens := by
  by_cases h1 : tok = ""
  · simp [validate, h1]
  · cases hres : resolveToken st tok with
    | none => simp [validate, h1, hres]
    | some kr =>
      obtain ⟨k, r⟩ := kr
      by_cases h2 : k = ""
      · simp [validate, h1, hres, h2]
      · by_cases h3 : r.used
        · simp [validate, h1, hres, h2, h3]
        · by_cases h4 : isExpired r now
          · simp [validate, h1, hres, h2, h3, h4]
          · simp [validate, h1, hres, h2, h3, h4]
            split <;> simp

/- ------------------------------------------------------------------
Claim theorems
------------------------------------------------------------------ -/

/-- Claim C1, counterexample.  The claim says every successful Validate
commits `used=true` so that only the first call on a token succeeds and
later calls decline `already_used`.  On the `/validate` handler of
`server.ts` this is false: with a single unused, unexpiring token, two
successive Validate calls with the same token value both succeed, and the
stored record still has `used = false` after the first success. -/
theorem validate_double_success :
    (validate noFaults oneTokenState "T1" "default" "entry" 100).1 =
      VResult.success "est-001" ∧
    (validate noFaults (validate noFaults oneTokenState "T1" "default" "entry" 100).2
        "T1" "default" "entry" 101).1 = VResult.success "est-001" ∧
    ((validate noFaults oneTokenState "T1" "default" "entry" 100).2.accessTokens.lookup
        "est-001").map TokenRecord.used = some false := by
  exact ⟨by decide, by decide, by decide⟩

/-- Claim C1, amended.  The `/validate` handler never writes to either
token store: a successful call leaves every token record unchanged (so an
unused, unexpired token validates successfully arbitrarily often), and a
call is declined `already_used` exactly when the resolver finds a record
whose `used` flag was already true before the call. -/
theorem validate_never_consumes (f : Faults) (st : ServerState) (tok sid ty : String)
    (now : Nat) :
    (validate f st tok sid ty now).2.accessTokens = st.accessTokens ∧
    (validate f st tok sid ty now).2.tokens = st.tokens ∧
    ((validate f st tok sid ty now).1 = VResult.alreadyUsed ↔
      tok ≠ "" ∧ ∃ k r, resolveToken st tok = some (k, r) ∧ k ≠ "" ∧ r.used = true) :=
  ⟨(validate_stores f st tok sid ty now).1, (validate_stores f st tok sid ty now).2,
    validate_alreadyUsed_iff f st tok sid ty now⟩

/-- Claim C2, counterexample.  The claim says a token whose `expiresAt` is
in the past is declined `expired` regardless of the `used` flag.  In the
handler the `used` check at line 203 runs before the expiry check at line
207, so a token that is both used and expired is declined `already_used`,
not `expired`. -/
theorem used_and_expired_declines_already_used :
    (validate noFaults usedExpiredState "T2" "default" "entry" 100).1 =
      VResult.alreadyUsed ∧
    (validate noFaults usedExpiredState "T2" "default" "entry" 100).1 ≠
      VResult.expired := by
  exact ⟨by decide, by decide⟩

/-- Claim C2, amended.  For a resolved token record the `used` check runs
first: a record with falsy `used` whose `expiresAt` is truthy and earlier
than the captured timestamp is declined `expired` (this covers every
first-ever validation attempt), but a record with `used = true` is
declined `already_used` even when it is also expired — single-use
dominates expiry, not the other way around. -/
theorem expiry_subordinate_to_used (f : Faults) (st : ServerState) (tok sid ty : String)
    (now : Nat) (k : String) (r : TokenRecord)
    (htok : tok ≠ "") (hres : resolveToken st tok = some (k, r)) (hk : k ≠ "") :
    (r.used = false → isExpired r now = true →
      (validate f st tok sid ty now).1 = VResult.expired) ∧
    (r.used = true → (validate f st tok sid ty now).1 = VResult.alreadyUsed) := by
  constructor
  · intro hu he
    simp [validate, htok, hres, hk, hu, he]
  · intro hu
    simp [validate, htok, hres, hk, hu]

/-- Claim C2 witness: an unused expired token is declined `expired`; a
used expired token is declined `already_used`. -/
theorem expiry_subordinate_to_used_witness :
    (validate noFaults freshExpiredState "T3" "default" "entry" 100).1 =
      VResult.expired ∧
    (validate noFaults usedExpiredState "T2" "default" "entry" 100).1 =
      VResult.alreadyUsed :=
  ⟨(expiry_subordinate_to_used noFaults freshExpiredState "T3" "default" "entry" 100
      "est-003" ⟨"T3", false, none, some 5⟩ (by decide) (by decide) (by decide)).1
      (by decide) (by decide),
    (expiry_subordinate_to_used noFaults usedExpiredState "T2" "default" "entry" 100
      "est-002" ⟨"T2", true, none, some 5⟩ (by decide) (by decide) (by decide)).2
      (by decide)⟩

/-- Claim C3: shift exclusivity.  Starting from an empty shift store,
after any serialized sequence of StartShift and EndShift calls in which no
StartShift sets `force`, every guard has at most one Active shift, and a
forceless StartShift issued while a guard has an Active shift returns
Conflict carrying that very shift and leaves the store unchanged. -/
theorem shift_exclusivity (ops : List ShiftOp) (hops : ∀ op ∈ ops, forceFree op = true)
    (st0 : ServerState) (h0 : st0.guardShifts = []) :
    (∀ gid, (openShiftsFor gid (runOps st0 ops).guardShifts).length ≤ 1) ∧
    (∀ gid notes cb now nid sh, sh ∈ openShiftsFor gid (runOps st0 ops).guardShifts →
      startShift (runOps st0 ops) gid notes cb false now nid =
        (StartResult.conflict sh, runOps st0 ops)) := by
  have hinv0 : ∀ g, (openShiftsFor g st0.guardShifts).length ≤ 1 := by
    intro g
    simp [openShiftsFor, h0]
  have hinv := runOps_inv ops hops st0 hinv0
  refine ⟨hinv, fun gid notes cb now nid sh hsh => ?_⟩
  have heq : openShiftsFor gid (runOps st0 ops).guardShifts = [sh] :=
    mem_length_le_one _ _ (hinv gid) hsh
  simp [startShift, heq]

/-- Claim C3 witness: guard `g1` starts a shift twice in direct
succession without `force`; the state keeps a single Active shift and a
third forceless start returns Conflict carrying the shift created by the
first call. -/
theorem shift_exclusivity_witness :
    (openShiftsFor "g1" (runOps emptyState demoOps).guardShifts).length ≤ 1 ∧
    startShift (runOps emptyState demoOps) "g1" none none false 30 "s3" =
      (StartResult.conflict ⟨"s1", "g1", 10, none, some true, none, none⟩,
        runOps emptyState demoOps) := by
  have h := shift_exclusivity demoOps (by decide) emptyState (by decide)
  exact ⟨h.1 "g1",
    h.2 "g1" none none 30 "s3" ⟨"s1", "g1", 10, none, some true, none, none⟩ (by decide)⟩

/-- Claim C7: store faults in the best-effort writes never change the
response.  The `/validate` response — in particular a success with the
resolved identity — is identical whether or not the attendance push, the
audit-history push inside `logAccess` (which catches its own error and
returns instead of raising), or the display-name read fails. -/
theorem validate_response_fault_independent (f : Faults) (st : ServerState)
    (tok sid ty : String) (now : Nat) :
    (validate f st tok sid ty now).1 = (validate noFaults st tok sid ty now).1 := by
  by_cases h1 : tok = ""
  · simp [validate, h1]
  · cases hres : resolveToken st tok with
    | none => simp [validate, h1, hres]
    | some kr =>
      obtain ⟨k, r⟩ := kr
      by_cases h2 : k = ""
      · simp [validate, h1, hres, h2]
      · by_cases h3 : r.used
        · simp [validate, h1, hres, h2, h3]
        · by_cases h4 : isExpired r now
          · simp [validate, h1, hres, h2, h3, h4]
          · simp [validate, h1, hres, h2, h3, h4]

/-- Claim C4: EndShift correctness.  With an explicit `shiftId`: NotFound
when the shift does not exist, Unauthorized (`not owner of shift`) when its
`guardId` differs from the caller's claim, Conflict (`shift already
ended`) when its `endTimestamp` is already set, and otherwise the shift is
closed with `endedAt = now` and `active = false`.  With `shiftId` omitted:
NotFound when the guard has no Active shift, and otherwise the Active
shift with the maximum `startTimestamp` is the one closed. -/
theorem endShift_spec (st : ServerState) (gid sid : String) (hsid : sid ≠ "")
    (notes : Option String) (now : Nat) :
    (st.guardShifts.find? (fun s => s.id == sid) = none →
      endShift st gid (some sid) notes now = (EndResult.shiftNotFound, st)) ∧
    (∀ sh, st.guardShifts.find? (fun s => s.id == sid) = some sh →
      (sh.guardId ≠ gid → endShift st gid (some sid) notes now = (EndResult.notOwner, st)) ∧
      (sh.guardId = gid → ntruthy sh.endTimestamp = true →
        endShift st gid (some sid) notes now = (EndResult.alreadyEnded, st)) ∧
      (sh.guardId = gid → ntruthy sh.endTimestamp = false →
        (endShift st gid (some sid) notes now).1 = EndResult.ended sid now ∧
        ∀ s ∈ (endShift st gid (some sid) notes now).2.guardShifts,
          s.id = sid → s.endTimestamp = some now ∧ s.active = some false)) ∧
    (openShiftsFor gid st.guardShifts = [] →
      endShift st gid none notes now = (EndResult.shiftNotFound, st)) ∧
    (∀ sh t, sortByStartDesc (openShiftsFor gid st.guardShifts) = sh :: t →
      sh ∈ openShiftsFor gid st.guardShifts ∧
      (∀ s ∈ openShiftsFor gid st.guardShifts, s.startTimestamp ≤ sh.startTimestamp) ∧
      (endShift st gid none notes now).1 = EndResult.ended sh.id now ∧
      ∀ s ∈ (endShift st gid none notes now).2.guardShifts,
        s.id = sh.id → s.endTimestamp = some now ∧ s.active = some false) := by
  refine ⟨?_, ?_, ?_, ?_⟩
  · intro hf
    simp [endShift, ofalsy, hsid, hf]
  · intro sh hf
    refine ⟨?_, ?_, ?_⟩
    · intro hng
      have hb : (sh.guardId != gid) = true := bne_iff_ne.mpr hng
      simp [endShift, ofalsy, hsid, hf, hb]
    · intro hg hend
      have hb : (sh.guardId != gid) = false := by simp [hg]
      simp [endShift, ofalsy, hsid, hf, hb, hend]
    · intro hg hend
      have hb : (sh.guardId != gid) = false := by simp [hg]
      have hstate : (endShift st gid (some sid) notes now).2.guardShifts =
          updateShiftById st.guardShifts sid now notes := by
        simp [endShift, ofalsy, hsid, hf, hb, hend]
      refine ⟨by simp [endShift, ofalsy, hsid, hf, hb, hend], ?_⟩
      intro s hs hid
      rw [hstate] at hs
      exact updateShiftById_closed st.guardShifts sid now notes s hs hid
  · intro hopen
    simp [endShift, ofalsy, hopen, sortByStartDesc]
  · intro sh t hsort
    obtain ⟨hmem, hbound⟩ := sortByStartDesc_head _ sh t hsort
    have hstate : (endShift st gid none notes now).2.guardShifts =
        updateShiftById st.guardShifts sh.id now notes := by
      simp [endShift, ofalsy, hsort]
    refine ⟨hmem, hbound, by simp [endShift, ofalsy, hsort], ?_⟩
    intro s hs hid
    rw [hstate] at hs
    exact updateShiftById_closed st.guardShifts sh.id now notes s hs hid

/-- Claim C4 witness: on a store with one open shift `s1` of guard `g1`,
the four EndShift outcomes are exercised at concrete inputs. -/
theorem endShift_spec_witness :
    (endShift oneShiftState "g1" (some "s1") none 99).1 = EndResult.ended "s1" 99 ∧
    endShift oneShiftState "g2" (some "s1") none 99 = (EndResult.notOwner, oneShiftState) ∧
    endShift oneShiftState "g2" none none 99 = (EndResult.shiftNotFound, oneShiftState) ∧
    (endShift oneShiftState "g1" none none 99).1 = EndResult.ended "s1" 99 := by
  refine ⟨?_, ?_, ?_, ?_⟩
  · exact (((endShift_spec oneShiftState "g1" "s1" (by decide) none 99).2.1
      ⟨"s1", "g1", 10, none, some true, none, none⟩ (by decide)).2.2 rfl (by decide)).1
  · exact ((endShift_spec oneShiftState "g2" "s1" (by decide) none 99).2.1
      ⟨"s1", "g1", 10, none, some true, none, none⟩ (by decide)).1 (by decide)
  · exact (endShift_spec oneShiftState "g2" "s1" (by decide) none 99).2.2.1 (by decide)
  · exact ((endShift_spec oneShiftState "g1" "s1" (by decide) none 99).2.2.2
      ⟨"s1", "g1", 10, none, some true, none, none⟩ [] (by decide)).2.2.1

/-- Claim C5: success effects of Validate.  A successful call resolved the
presented value to `(uid, record)`, appends exactly one attendance mark
for `(sessionId, uid, eventType)` and exactly one audit entry with
`authorized = true` and reason `ok`, returns the resolved identity, and a
failing best-effort display-name read does not change the success
result. -/
theorem validate_success_effects (st : ServerState) (tok sid ty : String) (now : Nat)
    (uid : String) (h : (validate noFaults st tok sid ty now).1 = VResult.success uid) :
    (resolveToken st tok).map Prod.fst = some uid ∧
    ((validate noFaults st tok sid ty now).2.accessHistory.map
        (fun e => (e.authorized, e.reason, e.studentUid, e.token, e.timestamp)) =
      st.accessHistory.map
        (fun e => (e.authorized, e.reason, e.studentUid, e.token, e.timestamp)) ++
        [(true, some "ok", some uid, some tok, now)]) ∧
    (validate noFaults st tok sid ty now).2.attendance =
      st.attendance ++ [⟨sid, uid, ty, now, some tok, none, none, none⟩] ∧
    (validate ⟨false, false, true⟩ st tok sid ty now).1 = VResult.success uid := by
  obtain ⟨h1, r, hres, h2, h3, h4⟩ := (validate_success_iff noFaults st tok sid ty now uid).1 h
  have h3b : ¬r.used = true := by simp [h3]
  have h4b : ¬isExpired r now = true := by simp [h4]
  refine ⟨by simp [hres], ?_, ?_, ?_⟩
  · simp [validate, h1, hres, h2, h3b, h4b, logAccess, noFaults, mkEntry, ofalsy]
  · simp [validate, h1, hres, h2, h3b, h4b, logAccess, noFaults]
  · exact (validate_success_iff ⟨false, false, true⟩ st tok sid ty now uid).2
      ⟨h1, r, hres, h2, h3, h4⟩

/-- Claim C5 witness: instantiated at the single-token store. -/
theorem validate_success_effects_witness :
    (resolveToken oneTokenState "T1").map Prod.fst = some "est-001" ∧
    ((validate noFaults oneTokenState "T1" "default" "entry" 100).2.accessHistory.map
        (fun e => (e.authorized, e.reason, e.studentUid, e.token, e.timestamp)) =
      oneTokenState.accessHistory.map
        (fun e => (e.authorized, e.reason, e.studentUid, e.token, e.timestamp)) ++
        [(true, some "ok", some "est-001", some "T1", 100)]) ∧
    (validate noFaults oneTokenState "T1" "default" "entry" 100).2.attendance =
      oneTokenState.attendance ++
        [⟨"default", "est-001", "entry", 100, some "T1", none, none, none⟩] ∧
    (validate ⟨false, false, true⟩ oneTokenState "T1" "default" "entry" 100).1 =
      VResult.success "est-001" :=
  validate_success_effects oneTokenState "T1" "default" "entry" 100 "est-001" (by decide)

/-- Claim C6: every decline is audited.  A `/validate` call whose result
is a decline (missing input, not found, already used, or expired) appends
exactly one entry to `accessHistory`, with `authorized = false` and with
the reason string of that decline cause. -/
theorem validate_decline_audited (st : ServerState) (tok sid ty : String) (now : Nat)
    (rsn : String)
    (h : declineReason (validate noFaults st tok sid ty now).1 = some rsn) :
    (validate noFaults st tok sid ty now).2.accessHistory.map
        (fun e => (e.authorized, e.reason)) =
      st.accessHistory.map (fun e => (e.authorized, e.reason)) ++ [(false, some rsn)] := by
  by_cases h1 : tok = ""
  · have hr : "token required" = rsn := by
      simpa [validate, h1, declineReason] using h
    subst hr
    simp [validate, h1, logAccess, noFaults, mkEntry, ofalsy]
  · cases hres : resolveToken st tok with
    | none =>
      have hr : "token not found" = rsn := by
        simpa [validate, h1, hres, declineReason] using h
      subst hr
      simp [validate, h1, hres, logAccess, noFaults, mkEntry, ofalsy]
    | some kr =>
      obtain ⟨k, r⟩ := kr
      by_cases h2 : k = ""
      · have hr : "token not found" = rsn := by
          simpa [validate, h1, hres, h2, declineReason] using h
        subst hr
        simp [validate, h1, hres, h2, logAccess, noFaults, mkEntry, ofalsy]
      · by_cases h3 : r.used
        · have hr : "token already used" = rsn := by
            simpa [validate, h1, hres, h2, h3, declineReason] using h
          subst hr
          simp [validate, h1, hres, h2, h3, logAccess, noFaults, mkEntry, ofalsy]
        · by_cases h4 : isExpired r now
          · have hr : "token expired" = rsn := by
              simpa [validate, h1, hres, h2, h3, h4, declineReason] using h
            subst hr
            simp [validate, h1, hres, h2, h3, h4, logAccess, noFaults, mkEntry, ofalsy]
          · exfalso
            simp [validate, h1, hres, h2, h3, h4, declineReason] at h

/-- Claim C6 witness: an unknown token value is declined and one
`authorized = false` entry with reason `token not found` is appended. -/
theorem validate_decline_audited_witness :
    (validate noFaults emptyState "TX" "default" "entry" 100).2.accessHistory.map
        (fun e => (e.authorized, e.reason)) =
      emptyState.accessHistory.map (fun e => (e.authorized, e.reason)) ++
        [(false, some "token not found")] :=
  validate_decline_audited emptyState "TX" "default" "entry" 100 "token not found" (by decide)

/-- Claim C8: override effects.  Authorize answers `missing input` when
both `studentId` and `token` are falsy; otherwise it records exactly one
always-authorized override with reason `manual_override`, one attendance
mark exactly when `studentId` is truthy, and one history entry referencing
the override id, returns the override id, and neither consults nor
mutates either token store (the response is invariant under replacing
them). -/
theorem authorize_spec (st : ServerState) (gid : String) (osid otok : Option String)
    (sessionId : String) (note shiftId : Option String) (now : Nat) (aid : String) :
    (struthy osid = false → struthy otok = false →
      authorize st gid osid otok sessionId note shiftId now aid =
        (AuthResult.missingInput, st)) ∧
    ((struthy osid || struthy otok) = true →
      (authorize st gid osid otok sessionId note shiftId now aid).1 =
        AuthResult.authorized aid now ∧
      ((authorize st gid osid otok sessionId note shiftId now aid).2.guardAuthorizations.map
          (fun o => (o.id, o.authorized, o.reason)) =
        st.guardAuthorizations.map (fun o => (o.id, o.authorized, o.reason)) ++
          [(aid, true, "manual_override")]) ∧
      (∀ s, ofalsy osid = some s →
        (authorize st gid osid otok sessionId note shiftId now aid).2.attendance =
          st.attendance ++
            [⟨sessionId, s, "manual_entry_by_guard", now, none, some gid, some aid,
              ofalsy shiftId⟩]) ∧
      (ofalsy osid = none →
        (authorize st gid osid otok sessionId note shiftId now aid).2.attendance =
          st.attendance) ∧
      ((authorize st gid osid otok sessionId note shiftId now aid).2.accessHistory.map
          (fun e => (e.authorized, e.reason, e.guardOverrideId)) =
        st.accessHistory.map (fun e => (e.authorized, e.reason, e.guardOverrideId)) ++
          [(true, some "manual_override", some aid)]) ∧
      (authorize st gid osid otok sessionId note shiftId now aid).2.accessTokens =
        st.accessTokens ∧
      (authorize st gid osid otok sessionId note shiftId now aid).2.tokens = st.tokens ∧
      (∀ at2 tk2, (authorize
          ⟨at2, tk2, st.students, st.guards, st.guardShifts, st.guardAuthorizations,
            st.attendance, st.accessHistory⟩ gid osid otok sessionId note shiftId now
            aid).1 =
        (authorize st gid osid otok sessionId note shiftId now aid).1)) := by
  constructor
  · intro hs ht
    simp [authorize, hs, ht]
  · intro hor
    have hcond : (!(struthy osid) && !(struthy otok)) = false := by
      cases hso : struthy osid <;> cases hto : struthy otok <;> simp_all
    refine ⟨?_, ?_, ?_, ?_, ?_, ?_, ?_, ?_⟩
    · cases hos : ofalsy osid <;> simp [authorize, hcond, hos]
    · cases hos : ofalsy osid <;> simp [authorize, hcond, hos]
    · intro s hs
      simp [authorize, hcond, hs]
    · intro hnone
      simp [authorize, hcond, hnone]
    · cases hos : ofalsy osid <;> simp [authorize, hcond, hos]
    · cases hos : ofalsy osid <;> simp [authorize, hcond, hos]
    · cases hos : ofalsy osid <;> simp [authorize, hcond, hos]
    · intro at2 tk2
      cases hos : ofalsy osid <;> simp [authorize, hcond, hos]

/-- Claim C8 witness: no inputs yields `missing input`; with a student id
the call succeeds with the new override id and appends the attendance
mark. -/
theorem authorize_spec_witness :
    authorize emptyState "g1" none none "default" none none 7 "a1" =
      (AuthResult.missingInput, emptyState) ∧
    (authorize emptyState "g1" (some "est-001") none "default" none none 7 "a1").1 =
      AuthResult.authorized "a1" 7 ∧
    (authorize emptyState "g1" (some "est-001") none "default" none none 7 "a1").2.attendance =
      emptyState.attendance ++
        [⟨"default", "est-001", "manual_entry_by_guard", 7, none, some "g1", some "a1",
          none⟩] := by
  refine ⟨?_, ?_, ?_⟩
  · exact (authorize_spec emptyState "g1" none none "default" none none 7 "a1").1 rfl rfl
  · exact ((authorize_spec emptyState "g1" (some "est-001") none "default" none none 7
      "a1").2 (by decide)).1
  · exact ((authorize_spec emptyState "g1" (some "est-001") none "default" none none 7
      "a1").2 (by decide)).2.2.1 "est-001" (by decide)

/-- Claim C9: guard authentication taxonomy.  For a guard record found in
the store: no stored hash (`pinHash || pin` falsy) answers the 500-class
misconfiguration result, distinct from the 401 wrong-pin result; a hash
that does not verify against the presented pin answers the 401 result; a
verifying hash yields the signed, time-bounded claim binding the guard id
and display name with the configured lifetime. -/
theorem guardLogin_taxonomy (vh : String → String → Bool) (jexp : String)
    (st : ServerState) (id pin : String) (hid : id ≠ "") (g : GuardRec)
    (hg : st.guards.lookup id = some g) :
    (storedHashOf g = none →
      guardLogin vh jexp st (some id) (some pin) = LoginResult.misconfigured ∧
      guardLogin vh jexp st (some id) (some pin) ≠ LoginResult.invalidPin) ∧
    (∀ hv, storedHashOf g = some hv → vh pin.trim hv = false →
      guardLogin vh jexp st (some id) (some pin) = LoginResult.invalidPin) ∧
    (∀ hv, storedHashOf g = some hv → vh pin.trim hv = true →
      guardLogin vh jexp st (some id) (some pin) =
        LoginResult.loggedIn ⟨id, g.name, "guard", jexp⟩) := by
  refine ⟨?_, ?_, ?_⟩
  · intro hsh
    constructor <;> simp [guardLogin, ofalsy, hid, hg, hsh]
  · intro hv hsh hvf
    simp [guardLogin, ofalsy, hid, hg, hsh, hvf]
  · intro hv hsh hvt
    simp [guardLogin, ofalsy, hid, hg, hsh, hvt]

/-- Claim C9 witness: the three login outcomes at concrete stores, with
constant verification capabilities. -/
theorem guardLogin_taxonomy_witness :
    (guardLogin (fun _ _ => false) "6h" noHashGuardState (some "g2") (some "9999") =
        LoginResult.misconfigured ∧
      guardLogin (fun _ _ => false) "6h" noHashGuardState (some "g2") (some "9999") ≠
        LoginResult.invalidPin) ∧
    guardLogin (fun _ _ => false) "6h" oneGuardState (some "g1") (some "9999") =
      LoginResult.invalidPin ∧
    guardLogin (fun _ _ => true) "6h" oneGuardState (some "g1") (some "1234") =
      LoginResult.loggedIn ⟨"g1", some "Ana", "guard", "6h"⟩ := by
  refine ⟨?_, ?_, ?_⟩
  · exact (guardLogin_taxonomy (fun _ _ => false) "6h" noHashGuardState "g2" "9999"
      (by decide) ⟨some "Luz", none, none⟩ (by decide)).1 (by decide)
  · exact (guardLogin_taxonomy (fun _ _ => false) "6h" oneGuardState "g1" "9999"
      (by decide) ⟨some "Ana", some "HASH", none⟩ (by decide)).2.1 "HASH" (by decide) rfl
  · exact (guardLogin_taxonomy (fun _ _ => true) "6h" oneGuardState "g1" "1234"
      (by decide) ⟨some "Ana", some "HASH", none⟩ (by decide)).2.2 "HASH" (by decide) rfl

/-- Claim C10 (implicit): the legacy `/verify` endpoint treats tokens as
permanent.  With a stored record for the id, the call authorizes exactly
when the stored token value equals the presented one; it never mutates
either token store; its outcome depends only on the stored token value
(so `used` and `expiresAt` are ignored entirely); and arbitrarily many
repeated calls with a matching pair all answer authorized. -/
theorem verify_token_permanent (f : Faults) (st : ServerState) (id tok : String)
    (now : Nat) (hid : id ≠ "") (htok : tok ≠ "") (r : TokenRecord)
    (hr : st.accessTokens.lookup id = some r) :
    ((verifyEndpoint f st (some id) (some tok) now).1 = VerifyResult.authorized ↔
      r.token = tok) ∧
    (verifyEndpoint f st (some id) (some tok) now).2.accessTokens = st.accessTokens ∧
    (verifyEndpoint f st (some id) (some tok) now).2.tokens = st.tokens ∧
    (∀ (st2 : ServerState) (r2 : TokenRecord),
      st2.accessTokens.lookup id = some r2 → r2.token = r.token →
      (verifyEndpoint f st2 (some id) (some tok) now).1 =
        (verifyEndpoint f st (some id) (some tok) now).1) ∧
    (r.token = tok → ∀ n,
      (verifyEndpoint f (verifyIter f (some id) (some tok) now n st)
          (some id) (some tok) now).1 = VerifyResult.authorized) := by
  refine ⟨?_, (verifyEndpoint_stores f st (some id) (some tok) now).1,
    (verifyEndpoint_stores f st (some id) (some tok) now).2, ?_, ?_⟩
  · by_cases he : r.token = tok <;> simp [verifyEndpoint, ofalsy, hid, htok, hr, he]
  · intro st2 r2 hr2 hteq
    by_cases he : r.token = tok
    · simp [verifyEndpoint, ofalsy, hid, htok, hr, hr2, hteq, he]
    · simp [verifyEndpoint, ofalsy, hid, htok, hr, hr2, hteq, he]
  · intro he n
    have hlook : (verifyIter f (some id) (some tok) now n st).accessTokens.lookup id =
        some r := by
      rw [verifyIter_accessTokens]
      exact hr
    simp [verifyEndpoint, ofalsy, hid, htok, hlook, he]

/-- Claim C10 witness: with the stored and presented values equal — on a
record that is both used and expired — the call authorizes, leaves the
token store unchanged, and still authorizes after three further calls. -/
theorem verify_token_permanent_witness :
    ((verifyEndpoint noFaults usedExpiredState (some "est-002") (some "T2") 50).1 =
        VerifyResult.authorized ↔ ("T2" : String) = "T2") ∧
    (verifyEndpoint noFaults usedExpiredState (some "est-002") (some "T2") 50).2.accessTokens =
      usedExpiredState.accessTokens ∧
    (verifyEndpoint noFaults
        (verifyIter noFaults (some "est-002") (some "T2") 50 3 usedExpiredState)
        (some "est-002") (some "T2") 50).1 = VerifyResult.authorized := by
  have h := verify_token_permanent noFaults usedExpiredState "est-002" "T2" 50 (by decide)
    (by decide) ⟨"T2", true, none, some 5⟩ (by decide)
  exact ⟨h.1, h.2.1, h.2.2.2.2 rfl 3⟩

end ControlSeguridad
